import Mathlib

/-!
Shallow embedding of the route-handle construction engine from
`mcrouter/routes/McRouteHandleProvider-inl.h`.

The configuration tree (`folly::dynamic`) is modelled as an inductive `Json`
with objects represented as insertion-ordered association lists.  Engine
state mutated during construction (`pools_`, `accessPoints_`,
`asyncLogRoutes_`, the process-wide destination map and the compression
codec manager) is threaded explicitly as a `PState`.  Fallible code returns
`Except Err`; the distinguished error `Err.ub` marks undefined behavior
(a null-pointer dereference), which is not a catchable C++ exception and is
therefore never rewrapped by the catch blocks.
-/

namespace Mcrouter

/-- A JSON-like configuration value (`folly::dynamic`).  Objects are
insertion-ordered association lists with unique keys. -/
inductive Json where
  | str : String → Json
  | num : Int → Json
  | bool : Bool → Json
  | arr : List Json → Json
  | obj : List (String × Json) → Json

/-- `json.get_ptr(key)` on an object: `none` models a null pointer result.
Pool and route configurations reaching these code paths are objects. -/
def Json.get : Json → String → Option Json
  | .obj kvs, k => kvs.lookup k
  | _, _ => none

def Json.isString : Json → Bool
  | .str _ => true
  | _ => false

def Json.isObject : Json → Bool
  | .obj _ => true
  | _ => false

/-- `dynamic::insert` / `operator[]=`: overwrite the value at the key if
present, else append the pair. -/
def objSet : List (String × Json) → String → Json → List (String × Json)
  | [], k, v => [(k, v)]
  | (k', v') :: rest, k, v =>
    if k' == k then (k, v) :: rest else (k', v') :: objSet rest k v

/-- `dynamic::erase(key)` on an object. -/
def objErase (kvs : List (String × Json)) (k : String) : List (String × Json) :=
  kvs.filter (fun kv => !(kv.1 == k))

/-- Wire protocols (`mc_protocol_t`) handled by `makePool`. -/
inductive Protocol where
  | ascii
  | caret
  | thrift
deriving DecidableEq

/-- Security mechanisms.  `KTLS12` stands for any mechanism other than the
three that are compatible with the thrift transport. -/
inductive SecurityMech where
  | NONE
  | TLS
  | TLS_TO_PLAINTEXT
  | KTLS12
deriving DecidableEq

/-- Transport selected per destination: `ThriftTransport` or `AsyncMcClient`. -/
inductive TransportKind where
  | thriftTransport
  | asyncMcClient
deriving DecidableEq

/-- Resolved backend endpoint identity. -/
structure AccessPoint where
  host : String
  port : Nat
  protocol : Protocol
  mech : SecurityMech
  compressed : Bool
deriving DecidableEq

/-- Construction-time failure.  `config` is a thrown configuration error
(`std::logic_error`); `ub` marks undefined behavior (null dereference),
which no catch block can intercept. -/
inductive Err where
  | config : String → Err
  | ub : Err
deriving DecidableEq

/-- Route handles.  External builders that are collaborators (hash route
factory, failover/shadow builders, asynclog/rate-limit/shard-split route
constructors) are modelled as opaque constructors recording exactly the
arguments the engine passes them. -/
inductive RH where
  | dest (transport : TransportKind) (ap : AccessPoint) (poolName : String)
      (indexInPool : Nat) (poolStatIndex : Int) (timeout : Nat)
      (keepRoutingPref : Bool) : RH
  | hashRoute (hashJson : Json) (children : List RH) : RH
  | rateLimit (ratesJson : Json) (child : RH) : RH
  | shardSplit (splitsJson : Json) (child : RH) : RH
  | asynclog (logName : String) (child : RH) : RH
  | failover (cfg : Json) : RH
  | shadow (cfg : Json) : RH

/-- Key of the process-wide destination map (`ProxyDestinationMap::emplace`):
transport kind, access point identity and the construction parameters. -/
structure DestKey where
  transport : TransportKind
  ap : AccessPoint
  timeout : Nat
  qosClass : Nat
  qosPath : Nat
deriving DecidableEq

/-- Engine-instance state mutated during construction. -/
structure PState where
  pools : List (String × List RH)
  accessPoints : List (String × List AccessPoint)
  asyncLogRoutes : List (String × RH)
  destMap : List DestKey
  codecManager : Bool

/-- Process-wide options consumed by the engine (read-only). -/
structure Opts where
  server_timeout_ms : Nat
  within_cluster_timeout_ms : Nat
  cross_cluster_timeout_ms : Nat
  cross_region_timeout_ms : Nat
  routeRegion : String
  routeCluster : String
  enable_compression : Bool
  default_qos_class : Nat
  default_qos_path : Nat
  disable_shard_split_route : Bool
  asynclog_disable : Bool

/-- Environment: options plus external collaborators, modelled as opaque
functions (locality test, pool parser, stats index lookup, extra provider,
pool-destination wrapper, compression initialization outcome, config
metadata line lookup) and the raw built-in route map. -/
structure Env where
  opts : Opts
  enableSecurityConfig : Bool
  isInLocalDatacenter : String → Bool
  initCompressionOk : Bool
  statsEnabledPoolIndex : String → Int
  parsePool : Json → Except String (String × Json)
  wrapPoolDestinations : String → Json → List RH → List RH
  tryCreate : String → Json → List RH
  lineOf : Json → Option Nat
  routeMap : List (String × (Json → Option RH))

/-- `RouteHandleFactory::create` for nested route objects, supplied by the
caller (external recursion through the factory). -/
def FactoryFn : Type := Json → PState → Except Err RH × PState

/-- Modelled from the spec: `parseString` from `ParsingUtil` (not under
`src/`) — typed extraction of a string field, descriptive failure on type
mismatch. -/
def parseString (j : Json) (fieldName : String) : Except String String :=
  match j with
  | .str s => .ok s
  | _ => .error (fieldName ++ " is not a string")

/-- Modelled from the spec: `parseBool` from `ParsingUtil` (not under
`src/`). -/
def parseBool (j : Json) (fieldName : String) : Except String Bool :=
  match j with
  | .bool b => .ok b
  | _ => .error (fieldName ++ " is not a boolean")

/-- Modelled from the spec: `parseInt` from `ParsingUtil` (not under
`src/`) — validated integer extraction with an inclusive range. -/
def parseInt (j : Json) (fieldName : String) (lo hi : Int) : Except String Nat :=
  match j with
  | .num n =>
    if lo ≤ n ∧ n ≤ hi then .ok n.toNat
    else .error (fieldName ++ " is out of range")
  | _ => .error (fieldName ++ " is not an integer")

/-- Modelled from the spec: `parseTimeout` from `ParsingUtil` (not under
`src/`) — a timeout field resolves to a non-negative millisecond count. -/
def parseTimeout (j : Json) (fieldName : String) : Except String Nat :=
  match j with
  | .num n =>
    if 0 ≤ n then .ok n.toNat
    else .error (fieldName ++ " is negative")
  | _ => .error (fieldName ++ " is not an integer")

/-- Modelled from the spec: `parseSecurityMech` from
`lib/network/SecurityOptions.h` (not under `src/`) — maps the configured
mechanism name to a `SecurityMech`. -/
def parseSecurityMech (s : String) : Except String SecurityMech :=
  if s = "plain" then .ok .NONE
  else if s = "ssl" then .ok .TLS
  else if s = "tls" then .ok .TLS
  else if s = "tls_to_plain" then .ok .TLS_TO_PLAINTEXT
  else if s = "ktls12" then .ok .KTLS12
  else .error ("invalid security mech: " ++ s)

/-- Modelled from the spec: `securityMechToString` from
`lib/network/SecurityOptions.h` (not under `src/`). -/
def securityMechToString : SecurityMech → String
  | .NONE => "plain"
  | .TLS => "ssl"
  | .TLS_TO_PLAINTEXT => "tls_to_plain"
  | .KTLS12 => "ktls12"

/-- Lines 104-127: extract optional `region`/`cluster`; a non-string value
only logs a failure and leaves the value empty (warn-and-continue). -/
def getRegionCluster (json : Json) : String × String :=
  (match json.get "region" with
   | some (.str s) => s
   | _ => "",
   match json.get "cluster" with
   | some (.str s) => s
   | _ => "")

/-- Lines 140-155: locality-tiered timeout override.  Applies only when both
`region` and `cluster` are non-empty; each tier's override applies only when
its configured value is non-zero. -/
def resolveTimeoutTier (opts : Opts) (region cluster : String) (timeout : Nat) : Nat :=
  if region ≠ "" ∧ cluster ≠ "" then
    if region = opts.routeRegion ∧ cluster = opts.routeCluster then
      if opts.within_cluster_timeout_ms ≠ 0 then opts.within_cluster_timeout_ms else timeout
    else if region = opts.routeRegion then
      if opts.cross_cluster_timeout_ms ≠ 0 then opts.cross_cluster_timeout_ms else timeout
    else
      if opts.cross_region_timeout_ms ≠ 0 then opts.cross_region_timeout_ms else timeout
  else timeout

/-- Lines 130-133: the explicitly requested `server_timeout`, else the
process default. -/
def explicitServerTimeout (env : Env) (json : Json) : Except String Nat :=
  match json.get "server_timeout" with
  | some j => parseTimeout j "server_timeout"
  | none => .ok env.opts.server_timeout_ms

/-- Lines 129-155: resolve `server_timeout` / `connect_timeout` (explicit
override, else process default; `connect_timeout` defaults to the pre-tier
server timeout), then apply the locality tier override to the server
timeout. -/
def resolvePoolTimeouts (env : Env) (json : Json) : Except String (Nat × Nat) :=
  match explicitServerTimeout env json with
  | .error m => .error m
  | .ok timeout =>
    match (match json.get "connect_timeout" with
           | some j => parseTimeout j "connect_timeout"
           | none => .ok timeout) with
    | .error m => .error m
    | .ok connectTimeout =>
      .ok (resolveTimeoutTier env.opts (getRegionCluster json).1 (getRegionCluster json).2 timeout,
           connectTimeout)

/-- Modelled from the spec: `equalStr(..., AsciiCaseInsensitive())` from
`lib/fbi/cpp/util.h` (not under `src/`) — ASCII case-insensitive string
equality, via lower-casing of basic latin letters. -/
def asciiLowerNat (c : Char) : Nat :=
  if 65 ≤ c.toNat ∧ c.toNat ≤ 90 then c.toNat + 32 else c.toNat

def eqCaseInsensitive (a b : String) : Bool :=
  a.data.map asciiLowerNat == b.data.map asciiLowerNat

/-- Lines 157-169: resolve the wire protocol (case-insensitive; unknown
value is a hard failure). -/
def resolveProtocol (json : Json) : Except String Protocol :=
  match json.get "protocol" with
  | none => .ok .ascii
  | some j => do
    let s ← parseString j "protocol"
    if eqCaseInsensitive "ascii" s then pure .ascii
    else if eqCaseInsensitive "caret" s then pure .caret
    else if eqCaseInsensitive "thrift" s then pure .thrift
    else .error ("Unknown protocol " ++ s)

/-- Lines 181-191: QoS class/path with validated integer ranges. -/
def resolveQos (env : Env) (json : Json) : Except String (Nat × Nat) :=
  match json.get "qos" with
  | none => .ok (env.opts.default_qos_class, env.opts.default_qos_path)
  | some jQos =>
    if jQos.isObject then do
      let qosClass ←
        match jQos.get "class" with
        | some j => parseInt j "qos.class" 0 4
        | none => pure env.opts.default_qos_class
      let qosPath ←
        match jQos.get "path" with
        | some j => parseInt j "qos.path" 0 3
        | none => pure env.opts.default_qos_path
      pure (qosClass, qosPath)
    else .error "qos must be an object."

/-- Security-related per-pool parameters (lines 193-233). -/
structure SecParams where
  mech : SecurityMech
  withinDcMech : Option SecurityMech
  crossDcMech : Option SecurityMech
  withinDcPort : Option Nat
  crossDcPort : Option Nat
  port : Nat

/-- Lines 193-233: resolve the base security mechanism (`security_mech`,
else the deprecated `use_ssl`), the within-DC / cross-DC mechanism and port
overrides, and the flat `port_override`; all only when security
configuration is enabled process-wide. -/
def resolveSecurityParams (env : Env) (json : Json) : Except String SecParams := do
  if env.enableSecurityConfig then
    let mech ←
      match json.get "security_mech" with
      | some j => do parseSecurityMech (← parseString j "security_mech")
      | none =>
        match json.get "use_ssl" with
        | some j => do
          let useSsl ← parseBool j "use_ssl"
          pure (if useSsl then SecurityMech.TLS else SecurityMech.NONE)
        | none => pure SecurityMech.NONE
    let withinDcMech ←
      match json.get "security_mech_within_dc" with
      | some j => do
        pure (some (← parseSecurityMech (← parseString j "security_mech_within_dc")))
      | none => pure none
    let crossDcMech ←
      match json.get "security_mech_cross_dc" with
      | some j => do
        pure (some (← parseSecurityMech (← parseString j "security_mech_cross_dc")))
      | none => pure none
    let withinDcPort ←
      match json.get "port_override_within_dc" with
      | some j => do pure (some (← parseInt j "port_override_within_dc" 1 65535))
      | none => pure none
    let crossDcPort ←
      match json.get "port_override_cross_dc" with
      | some j => do pure (some (← parseInt j "port_override_cross_dc" 1 65535))
      | none => pure none
    let port ←
      match json.get "port_override" with
      | some j => parseInt j "port_override" 1 65535
      | none => pure 0
    pure ⟨mech, withinDcMech, crossDcMech, withinDcPort, crossDcPort, port⟩
  else
    pure ⟨.NONE, none, none, none, none, 0⟩

/-- All per-pool parameters resolved by lines 129-233 before the server
loop. -/
structure PoolParams where
  timeout : Nat
  connectTimeout : Nat
  protocol : Protocol
  enableCompression : Bool
  keepRoutingPref : Bool
  qosClass : Nat
  qosPath : Nat
  sec : SecParams

/-- Lines 129-233 of `makePool`: the pure (state-free) resolution of all
per-pool parameters, in source order. -/
def resolvePoolParams (env : Env) (json : Json) : Except String PoolParams :=
  match resolvePoolTimeouts env json with
  | .error m => .error m
  | .ok (timeout, connectTimeout) =>
    match resolveProtocol json with
    | .error m => .error m
    | .ok protocol =>
      match (match json.get "enable_compression" with
             | some j => parseBool j "enable_compression"
             | none => .ok env.opts.enable_compression) with
      | .error m => .error m
      | .ok enableCompression =>
        match (match json.get "keep_routing_prefix" with
               | some j => parseBool j "keep_routing_prefix"
               | none => .ok false) with
        | .error m => .error m
        | .ok keepRoutingPref =>
          match resolveQos env json with
          | .error m => .error m
          | .ok (qosClass, qosPath) =>
            match resolveSecurityParams env json with
            | .error m => .error m
            | .ok sec =>
              .ok ⟨timeout, connectTimeout, protocol, enableCompression, keepRoutingPref,
                   qosClass, qosPath, sec⟩

/-- Lines 241-246: the failure text for a `hostnames` length mismatch. -/
def hostnamesSizeMsg (nServers nHostnames : Nat) : String :=
  "hostnames expected to be of the same size as servers, expected "
    ++ toString nServers ++ ", got " ++ toString nHostnames

/-- Lines 234-246: `servers` must be present and an array; `hostnames`, when
present, must be an array of the same length.  Returns the server list. -/
def validateServers (json : Json) : Except String (List Json) := do
  match json.get "servers" with
  | none => .error "servers not found"
  | some jservers =>
    match jservers with
    | .arr servers =>
      match json.get "hostnames" with
      | none => .ok servers
      | some jhostnames =>
        match jhostnames with
        | .arr hostnames =>
          if hostnames.length = servers.length then .ok servers
          else .error (hostnamesSizeMsg servers.length hostnames.length)
        | _ => .error "hostnames is not an array"
    | _ => .error "servers is not an array"

/-- Modelled from the spec: `AccessPoint::create` from `lib/network` (not
under `src/`) — parses a plain endpoint string under the ambient policy
(protocol, base security mechanism, port override where 0 means no
override, compression flag); fails (null) on an invalid descriptor. -/
def AccessPoint.create (s : String) (protocol : Protocol) (mech : SecurityMech)
    (port : Nat) (compressed : Bool) : Option AccessPoint :=
  if s = "" then none
  else some ⟨s, port, protocol, mech, compressed⟩

/-- Lines 267-285: apply the within-DC / cross-DC security-mechanism and
port overrides based on a locality test against the endpoint's host. -/
def applyDcOverrides (env : Env) (sec : SecParams) (ap : AccessPoint) : AccessPoint :=
  if sec.withinDcMech.isSome ∨ sec.crossDcMech.isSome ∨
      sec.withinDcPort.isSome ∨ sec.crossDcPort.isSome then
    if env.isInLocalDatacenter ap.host then
      let ap := match sec.withinDcMech with
        | some m => { ap with mech := m }
        | none => ap
      match sec.withinDcPort with
      | some p => { ap with port := p }
      | none => ap
    else
      let ap := match sec.crossDcMech with
        | some m => { ap with mech := m }
        | none => ap
      match sec.crossDcPort with
      | some p => { ap with port := p }
      | none => ap
  else ap

/-- Lines 287-298: if compression is requested and no codec manager exists
yet, attempt lazy one-time initialization; on failure, disable compression
for this endpoint only (non-fatal). -/
def maybeInitCompression (env : Env) (ap : AccessPoint) (st : PState) :
    AccessPoint × PState :=
  if ap.compressed ∧ ¬ st.codecManager then
    if env.initCompressionOk then (ap, { st with codecManager := true })
    else ({ ap with compressed := false }, st)
  else (ap, st)

/-- Lines 300-306: register the access point under the pool name in
`accessPoints_` (create the entry on first use, then append). -/
def apRegister : List (String × List AccessPoint) → String → AccessPoint →
    List (String × List AccessPoint)
  | [], name, ap => [(name, [ap])]
  | (n, aps) :: rest, name, ap =>
    if n == name then (n, aps ++ [ap]) :: rest
    else (n, aps) :: apRegister rest name ap

def registerAccessPoint (st : PState) (name : String) (ap : AccessPoint) : PState :=
  { st with accessPoints := apRegister st.accessPoints name ap }

/-- The three security mechanisms compatible with `ThriftTransport`
(lines 309-315). -/
def thriftMechOk (m : SecurityMech) : Bool :=
  m == .NONE || m == .TLS || m == .TLS_TO_PLAINTEXT

/-- `ProxyDestinationMap::emplace`: obtain the shared destination for the
key, creating it only if absent (sharing is mandatory). -/
def destMapEmplace (m : List DestKey) (k : DestKey) : List DestKey :=
  if m.contains k then m else m ++ [k]

/-- Lines 350-374 (`createDestinationRoute`): emplace the shared destination
object into the process-wide destination map and wrap it, with the
pool-position metadata, into a destination route handle. -/
def createDestinationRoute (transport : TransportKind) (params : PoolParams)
    (name : String) (i : Nat) (statIndex : Int) (ap : AccessPoint) (st : PState) :
    Except Err RH × PState :=
  (.ok (RH.dest transport ap name i statIndex params.timeout params.keepRoutingPref),
   { st with destMap :=
      destMapEmplace st.destMap ⟨transport, ap, params.timeout, params.qosClass, params.qosPath⟩ })

/-- Lines 308-340: transport selection for one resolved endpoint.  Thrift
protocol requires the effective security mechanism to be plain, TLS or
TLS-to-plaintext; any other mechanism is a hard failure.  All other
protocols use `AsyncMcClient`. -/
def makeDestination (params : PoolParams) (name : String) (i : Nat)
    (statIndex : Int) (ap : AccessPoint) (st : PState) : Except Err RH × PState :=
  if ap.protocol = .thrift then
    if thriftMechOk ap.mech then
      createDestinationRoute .thriftTransport params name i statIndex ap st
    else
      (.error (.config
        ("Security mechanism must be 'plain', 'tls' or 'tls_to_plain' for ThriftTransport, got "
          ++ securityMechToString ap.mech)), st)
  else
    createDestinationRoute .asyncMcClient params name i statIndex ap st

/-- Lines 252-341, one iteration: a structured-object entry is delegated to
the generic factory; a plain string is resolved into an access point,
subjected to DC overrides, compression initialization and registration, and
turned into a destination route. -/
def makePoolServer (env : Env) (fc : FactoryFn) (params : PoolParams)
    (name : String) (statIndex : Int) (i : Nat) (server : Json) (st : PState) :
    Except Err RH × PState :=
  match server with
  | .obj _ => fc server st
  | .str s =>
    match AccessPoint.create s params.protocol params.sec.mech params.sec.port
        params.enableCompression with
    | none => (.error (.config ("invalid server " ++ s)), st)
    | some ap =>
      let ap := applyDcOverrides env params.sec ap
      let (ap, st) := maybeInitCompression env ap st
      let st := registerAccessPoint st name ap
      makeDestination params name i statIndex ap st
  | _ => (.error (.config ("server #" ++ toString i ++ " is not a string/object")), st)

/-- Lines 250-341: the server loop, accumulating destinations in order. -/
def makePoolServers (env : Env) (fc : FactoryFn) (params : PoolParams)
    (name : String) (statIndex : Int) :
    List Json → Nat → List RH → PState → Except Err (List RH) × PState
  | [], _, acc, st => (.ok acc, st)
  | server :: rest, i, acc, st =>
    match makePoolServer env fc params name statIndex i server st with
    | (.error e, st') => (.error e, st')
    | (.ok rh, st') => makePoolServers env fc params name statIndex rest (i + 1) (acc ++ [rh]) st'

/-- Line 346 (`throwLogic("Pool {}: {}", name, e.what())`): the catch block
rewraps configuration errors with the pool name; undefined behavior is not
an exception and passes through. -/
def wrapPoolErr (name : String) : Err → Err
  | .config m => .config ("Pool " ++ name ++ ": " ++ m)
  | .ub => .ub

/-- Lines 343-344: `pools_.emplace(name, destinations).first->second` —
insert only if absent and return the mapped sequence (the existing one when
the key is already present). -/
def poolsEmplace (st : PState) (name : String) (dests : List RH) :
    List RH × PState :=
  match st.pools.lookup name with
  | some existing => (existing, st)
  | none => (dests, { st with pools := st.pools ++ [(name, dests)] })

/-- The body of `makePool`'s try block (lines 129-344): parameter
resolution, server validation, the server loop, and the final cache
insertion. -/
def makePoolInner (env : Env) (fc : FactoryFn) (st : PState)
    (name : String) (json : Json) : Except Err (List RH) × PState :=
  match resolvePoolParams env json with
  | .error m => (.error (.config m), st)
  | .ok params =>
    match validateServers json with
    | .error m => (.error (.config m), st)
    | .ok servers =>
      match makePoolServers env fc params name (env.statsEnabledPoolIndex name) servers 0 [] st with
      | (.error e, st') => (.error e, st')
      | (.ok dests, st') =>
        let (ds, st'') := poolsEmplace st' name dests
        (.ok ds, st'')

/-- Lines 91-348 (`McRouteHandleProvider::makePool`): return the cached
destination sequence when the pool name is present in `pools_`; otherwise
run full construction, caching the result, and rewrap any configuration
error with the pool name. -/
def makePool (env : Env) (fc : FactoryFn) (st : PState)
    (name : String) (json : Json) : Except Err (List RH) × PState :=
  match st.pools.lookup name with
  | some ds => (.ok ds, st)
  | none =>
    match makePoolInner env fc st name json with
    | (.ok ds, st') => (.ok ds, st')
    | (.error e, st') => (.error (wrapPoolErr name e), st')

/-- `asyncLogRoutes_.emplace(name, target)`: insert only if the key is
absent (C++ unique-key associative `emplace` never overwrites).  The map
type is declared in `McRouteHandleProvider.h` (not under `src/`); per the
spec it is a mapping from asynclog name to route handle. -/
def mapEmplace (m : List (String × RH)) (k : String) (v : RH) : List (String × RH) :=
  match m.lookup k with
  | some _ => m
  | none => m ++ [(k, v)]

/-- Lines 79-89 (`createAsynclogRoute`): wrap the target in an asynclog
route unless async logging is disabled process-wide, record the (possibly
unwrapped) handle in `asyncLogRoutes_` under the given name, and return
it. -/
def createAsynclogRoute (env : Env) (st : PState) (target : RH)
    (asynclogName : String) : Except Err RH × PState :=
  let target := if ¬ env.opts.asynclog_disable then RH.asynclog asynclogName target else target
  (.ok target, { st with asyncLogRoutes := mapEmplace st.asyncLogRoutes asynclogName target })

/-- Modelled from the spec: `WeightedCh3HashFunc::type()` from
`lib/WeightedCh3HashFunc.h` (not under `src/`) — the name of the weighted
Ch3 hash function. -/
def weightedCh3Type : String := "WeightedCh3"

/-- Lines 404-428: build the hash configuration by merging pool-level
`weights`/`tags` with the route's own `hash` field (string shorthand sets
the hash-function name; object form is merged key-by-key, route-level keys
overriding). -/
def buildHashJson (poolJson routeJson : Json) : Except String Json := do
  let base : List (String × Json) :=
    match poolJson.get "weights" with
    | some w => [("hash_func", .str weightedCh3Type), ("weights", w)]
    | none => []
  let base :=
    match poolJson.get "tags" with
    | some t => objSet base "tags" t
    | none => base
  match routeJson with
  | .obj _ =>
    match routeJson.get "hash" with
    | none => .ok (.obj base)
    | some (.str s) => .ok (.obj (objSet base "hash_func" (.str s)))
    | some (.obj kvs) => .ok (.obj (kvs.foldl (fun b kv => objSet b kv.1 kv.2) base))
    | some _ => .error "hash is not object/string"
  | _ => .ok (.obj base)

/-- Lines 444-446: `asynclog` field parsed as a boolean; decoration is on
by default. -/
def poolRouteNeedAsynclog (routeJson : Json) : Except String Bool :=
  match routeJson.get "asynclog" with
  | some j => parseBool j "asynclog"
  | none => .ok true

/-- Lines 447-449: the asynclog key is `name` when given, else the pool's
name. -/
def poolRouteAsynclogName (poolName : String) (routeJson : Json) : Except String String :=
  match routeJson.get "name" with
  | some j => parseString j "name"
  | none => .ok poolName

/-- Lines 432-453: the fixed decoration order over the hash-distribution
handle — rate limiting when `rates` is present, then shard splitting when
`shard_splits` is present and shard-split routes are not globally disabled,
then the asynclog step when `asynclog` is not explicitly false. -/
def applyPoolRouteDecorations (env : Env) (st : PState) (poolName : String)
    (routeJson : Json) (route : RH) : Except Err RH × PState :=
  match routeJson with
  | .obj _ =>
    let route :=
      match routeJson.get "rates" with
      | some jrates => RH.rateLimit jrates route
      | none => route
    let route :=
      if ¬ env.opts.disable_shard_split_route then
        match routeJson.get "shard_splits" with
        | some jsplits => RH.shardSplit jsplits route
        | none => route
      else route
    match poolRouteNeedAsynclog routeJson with
    | .error m => (.error (.config m), st)
    | .ok needAsynclog =>
      match poolRouteAsynclogName poolName routeJson with
      | .error m => (.error (.config m), st)
      | .ok asynclogName =>
        if needAsynclog then createAsynclogRoute env st route asynclogName
        else (.ok route, st)
  | _ => createAsynclogRoute env st route poolName

/-- Line 457: the catch block of `makePoolRoute`. -/
def wrapPoolRouteErr (name : String) : Err → Err
  | .config m => .config ("PoolRoute " ++ name ++ ": " ++ m)
  | .ub => .ub

/-- The try block of `makePoolRoute` (lines 395-458): external destination
wrapping, hash configuration, hash-distribution handle, decorations. -/
def makePoolRouteInner (env : Env) (st : PState) (poolName : String)
    (poolJson routeJson : Json) (destinations : List RH) : Except Err RH × PState :=
  let destinations := env.wrapPoolDestinations poolName routeJson destinations
  match buildHashJson poolJson routeJson with
  | .error m => (.error (.config m), st)
  | .ok jhashWithWeights =>
    applyPoolRouteDecorations env st poolName routeJson (RH.hashRoute jhashWithWeights destinations)

/-- Lines 376-459 (`McRouteHandleProvider::makePoolRoute`): accept an
object (with a required `pool` field) or a bare pool-name string, resolve
the pool, then compose; errors from composition are rewrapped with the
pool name (errors from `makePool` itself already carry the pool prefix and
are not rewrapped). -/
def makePoolRoute (env : Env) (fc : FactoryFn) (st : PState)
    (routeJson : Json) : Except Err RH × PState :=
  match routeJson with
  | .obj _ =>
    match routeJson.get "pool" with
    | none => (.error (.config "PoolRoute: pool not found"), st)
    | some jpool => makePoolRouteAux env fc st jpool routeJson
  | .str _ => makePoolRouteAux env fc st routeJson routeJson
  | _ => (.error (.config "PoolRoute should be object or string"), st)
where
  makePoolRouteAux (env : Env) (fc : FactoryFn) (st : PState)
      (jpool routeJson : Json) : Except Err RH × PState :=
    match env.parsePool jpool with
    | .error m => (.error (.config m), st)
    | .ok (poolName, poolJson) =>
      match makePool env fc st poolName poolJson with
      | (.error e, st') => (.error e, st')
      | (.ok destinations, st') =>
        match makePoolRouteInner env st' poolName poolJson routeJson destinations with
        | (.error e, st'') => (.error (wrapPoolRouteErr poolName e), st'')
        | (.ok route, st'') => (.ok route, st'')

/-- Lines 478-488: the wrapper installed around every registered factory —
a null result is promoted to a configuration error naming the route
type. -/
def checkedFactory (rhName : String) (factoryFunc : Json → Option RH)
    (json : Json) : Except String RH :=
  match factoryFunc json with
  | none => .error ("make" ++ rhName ++ " returned nullptr")
  | some rh => .ok rh

/-- Lines 467-492 (`buildCheckedRouteMap`): wrap all factory functions of
the built-in route map with the null check. -/
def buildCheckedRouteMap (m : List (String × (Json → Option RH))) :
    List (String × (Json → Except String RH)) :=
  m.map (fun p => (p.1, checkedFactory p.1 p.2))

/-- Lines 509-538: the SaltedFailoverRoute configuration rewrite.  The
outer `none` models the undefined behavior of dereferencing the null
result of `json.get_ptr("pool")` when the field is absent.  Otherwise the
`children` entry of the configuration is replaced by a normal branch (a
`PoolRoute` object carrying the pool reference and any `hash` object) and
a failover branch referencing the pool directly. -/
def saltedFailoverRewrite (json : Json) : Option (Except String Json) :=
  match json.get "pool" with
  | none => none
  | some jPool =>
    some (
      match (match jPool with
             | .str s => Except.ok (objSet [("type", Json.str "PoolRoute")] "pool" (.str s))
             | .obj _ => Except.ok (objSet [("type", Json.str "PoolRoute")] "pool" jPool)
             | _ => Except.error "pool needs to be either a string or an object") with
      | .error m => .error m
      | .ok normalRoute0 =>
        match (match jPool with
               | .str s => Except.ok (Json.str ("Pool|" ++ s))
               | .obj _ => Except.ok jPool
               | _ => Except.error "pool needs to be either a string or an object") with
        | .error m => .error m
        | .ok failoverChild =>
          .ok (match json with
               | .obj kvs =>
                 Json.obj (objSet (objErase kvs "children") "children"
                   (.arr [Json.obj (match json.get "hash" with
                                    | some jHash => objSet normalRoute0 "hash" jHash
                                    | none => normalRoute0),
                          failoverChild]))
               | _ => json))

/-- Lines 499-568 (`McRouteHandleProvider::create`): dispatch on the route
type — the structurally handled built-ins first, then the checked
registry, then the extensible provider, and finally a descriptive lookup
failure.  The external shadow and failover builders are modelled as opaque
constructors recording the configuration delegated to them. -/
def create (env : Env) (fc : FactoryFn) (st : PState) (tyName : String)
    (json : Json) : Except Err (List RH) × PState :=
  if tyName = "Pool" then
    match env.parsePool json with
    | .error m => (.error (.config m), st)
    | .ok (poolName, poolJson) => makePool env fc st poolName poolJson
  else if tyName = "ShadowRoute" then
    (.ok [RH.shadow json], st)
  else if tyName = "SaltedFailoverRoute" then
    match saltedFailoverRewrite json with
    | none => (.error .ub, st)
    | some (.error m) => (.error (.config m), st)
    | some (.ok newJson) => (.ok [RH.failover newJson], st)
  else if tyName = "FailoverRoute" then
    (.ok [RH.failover json], st)
  else if tyName = "PoolRoute" then
    match makePoolRoute env fc st json with
    | (.error e, st') => (.error e, st')
    | (.ok rh, st') => (.ok [rh], st')
  else
    match (buildCheckedRouteMap env.routeMap).lookup tyName with
    | some f =>
      match f json with
      | .error m => (.error (.config m), st)
      | .ok rh => (.ok [rh], st)
    | none =>
      let ret := env.tryCreate tyName json
      if ¬ ret.isEmpty then (.ok ret, st)
      else
        match env.lineOf json with
        | some line =>
          (.error (.config ("Unknown RouteHandle: " ++ tyName ++ " line: " ++ toString line)), st)
        | none => (.error (.config ("Unknown RouteHandle: " ++ tyName)), st)

/-! ## Concrete fixtures used by witnesses -/

def testOpts : Opts :=
  ⟨1000, 10, 20, 30, "r1", "c1", false, 0, 0, false, false⟩

def testEnv : Env where
  opts := testOpts
  enableSecurityConfig := true
  isInLocalDatacenter := fun h => h == "local"
  initCompressionOk := true
  statsEnabledPoolIndex := fun _ => -1
  parsePool := fun j =>
    match j with
    | .str s => .ok (s, .obj [("servers", .arr [.str "hostA"])])
    | .obj kvs => .ok ("inline", .obj kvs)
    | _ => .error "invalid pool"
  wrapPoolDestinations := fun _ _ ds => ds
  tryCreate := fun _ _ => []
  lineOf := fun _ => none
  routeMap := []

def testFc : FactoryFn := fun j st => (.ok (.shadow j), st)

def st0 : PState := ⟨[], [], [], [], false⟩

def poolJsonA : Json := .obj [("servers", .arr [.str "hostA", .str "hostB"])]

/-! ## Helper lemmas -/

theorem lookupAppendOfNone {β : Type} (l : List (String × β)) (k : String) (v : β)
    (h : l.lookup k = none) : (l ++ [(k, v)]).lookup k = some v := by
  induction l with
  | nil => simp
  | cons p t ih =>
    obtain ⟨a, b⟩ := p
    rw [List.cons_append, List.lookup_cons]
    rw [List.lookup_cons] at h
    cases hab : (k == a) with
    | true => simp [hab] at h
    | false => simp only [hab] at h ⊢; exact ih h

theorem poolsEmplace_lookup (st : PState) (name : String) (dests ds : List RH)
    (st' : PState) (h : poolsEmplace st name dests = (ds, st')) :
    st'.pools.lookup name = some ds := by
  unfold poolsEmplace at h
  split at h
  · rename_i existing heq
    simp only [Prod.mk.injEq] at h
    obtain ⟨h1, h2⟩ := h
    subst h1; subst h2
    exact heq
  · rename_i heq
    simp only [Prod.mk.injEq] at h
    obtain ⟨h1, h2⟩ := h
    subst h1; subst h2
    exact lookupAppendOfNone _ _ _ heq

theorem makePoolInner_ok_lookup {env : Env} {fc : FactoryFn} {st : PState}
    {name : String} {json : Json} {ds : List RH} {st' : PState}
    (h : makePoolInner env fc st name json = (.ok ds, st')) :
    st'.pools.lookup name = some ds := by
  unfold makePoolInner at h
  split at h
  · simp at h
  · split at h
    · simp at h
    · split at h
      · simp at h
      · rename_i dests st1 heq
        cases hpe : poolsEmplace st1 name dests with
        | mk ds2 st2 =>
          rw [hpe] at h
          simp only [Prod.mk.injEq, Except.ok.injEq] at h
          obtain ⟨h1, h2⟩ := h
          subst h1; subst h2
          exact poolsEmplace_lookup _ _ _ _ _ hpe

theorem makePool_ok_lookup {env : Env} {fc : FactoryFn} {st : PState}
    {name : String} {json : Json} {ds : List RH} {st' : PState}
    (h : makePool env fc st name json = (.ok ds, st')) :
    st'.pools.lookup name = some ds := by
  unfold makePool at h
  split at h
  · rename_i ds0 heq
    simp only [Prod.mk.injEq, Except.ok.injEq] at h
    obtain ⟨h1, h2⟩ := h
    subst h1; subst h2
    exact heq
  · split at h
    · rename_i ds0 st0' heq
      simp only [Prod.mk.injEq, Except.ok.injEq] at h
      obtain ⟨h1, h2⟩ := h
      subst h1; subst h2
      exact makePoolInner_ok_lookup heq
    · simp at h

/-! ## C1 -/

/-- C1: resolving the same pool name a second time within one engine
instance returns the cached destination sequence from the first resolution
(identical list, hence identical length and element order), with the state
completely unchanged — so construction runs at most once per pool name.
The second call may even use a different factory and a different pool
configuration: neither is consulted on the cached path. -/
theorem makePool_idempotent (env : Env) (fc fc' : FactoryFn) (st : PState)
    (name : String) (json json' : Json) (ds : List RH) (st' : PState)
    (h : makePool env fc st name json = (.ok ds, st')) :
    makePool env fc' st' name json' = (.ok ds, st') := by
  have hlk : st'.pools.lookup name = some ds := makePool_ok_lookup h
  unfold makePool
  rw [hlk]

def c1State1 : PState := (makePool testEnv testFc st0 "A" poolJsonA).2

def c1Dests : List RH :=
  match (makePool testEnv testFc st0 "A" poolJsonA).1 with
  | .ok ds => ds
  | .error _ => []

theorem makePool_idempotent_witness :
    makePool testEnv testFc c1State1 "A" poolJsonA = (.ok c1Dests, c1State1) :=
  makePool_idempotent testEnv testFc testFc st0 "A" poolJsonA poolJsonA c1Dests c1State1 rfl

/-! ## State-preservation lemmas for the server loop -/

theorem maybeInitCompression_pools (env : Env) (ap : AccessPoint) (st : PState) :
    ((maybeInitCompression env ap st).2).pools = st.pools := by
  unfold maybeInitCompression
  split
  · split <;> rfl
  · rfl

theorem makeDestination_pools (params : PoolParams) (name : String) (i : Nat)
    (statIndex : Int) (ap : AccessPoint) (st : PState) :
    ((makeDestination params name i statIndex ap st).2).pools = st.pools := by
  unfold makeDestination createDestinationRoute
  split
  · split <;> rfl
  · rfl

theorem makePoolServer_pools (env : Env) (fc : FactoryFn) (params : PoolParams)
    (name : String) (statIndex : Int) (i : Nat) (server : Json) (st : PState)
    (hfc : ∀ j s, ((fc j s).2).pools = s.pools) :
    ((makePoolServer env fc params name statIndex i server st).2).pools = st.pools := by
  cases server with
  | obj kvs => exact hfc _ _
  | num n => rfl
  | bool b => rfl
  | arr l => rfl
  | str s =>
    simp only [makePoolServer]
    split
    · rfl
    · rename_i ap heq
      cases hmc : maybeInitCompression env (applyDcOverrides env params.sec ap) st with
      | mk ap2 st2 =>
        have h2 : st2.pools = st.pools := by
          have h3 := maybeInitCompression_pools env (applyDcOverrides env params.sec ap) st
          rw [hmc] at h3
          exact h3
        rw [makeDestination_pools]
        exact h2

theorem makePoolServers_pools (env : Env) (fc : FactoryFn) (params : PoolParams)
    (name : String) (statIndex : Int)
    (hfc : ∀ j s, ((fc j s).2).pools = s.pools) :
    ∀ (servers : List Json) (i : Nat) (acc : List RH) (st : PState),
    ((makePoolServers env fc params name statIndex servers i acc st).2).pools = st.pools := by
  intro servers
  induction servers with
  | nil => intro i acc st; rfl
  | cons server rest ih =>
    intro i acc st
    simp only [makePoolServers]
    cases hps : makePoolServer env fc params name statIndex i server st with
    | mk r st' =>
      have h1 : st'.pools = st.pools := by
        have h3 := makePoolServer_pools env fc params name statIndex i server st hfc
        rw [hps] at h3
        exact h3
      cases r with
      | error e => exact h1
      | ok rh =>
        rw [ih]
        exact h1

theorem makePoolInner_error_pools {env : Env} {fc : FactoryFn} {st : PState}
    {name : String} {json : Json} {e : Err} {st' : PState}
    (hfc : ∀ j s, ((fc j s).2).pools = s.pools)
    (h : makePoolInner env fc st name json = (.error e, st')) :
    st'.pools = st.pools := by
  unfold makePoolInner at h
  split at h
  · simp only [Prod.mk.injEq] at h
    rw [← h.2]
  · split at h
    · simp only [Prod.mk.injEq] at h
      rw [← h.2]
    · rename_i x1 params hrp x2 servers hvs
      cases hms : makePoolServers env fc params name (env.statsEnabledPoolIndex name)
          servers 0 [] st with
      | mk r st1 =>
        have h1 : st1.pools = st.pools := by
          have h3 := makePoolServers_pools env fc params name
            (env.statsEnabledPoolIndex name) hfc servers 0 [] st
          rw [hms] at h3
          exact h3
        rw [hms] at h
        cases r with
        | error e0 =>
          simp only [Prod.mk.injEq] at h
          rw [← h.2]
          exact h1
        | ok dests =>
          cases hpe : poolsEmplace st1 name dests with
          | mk ds2 st2 => simp [hpe] at h

/-! ## C9 -/

/-- C9: if `makePool` raises an error for a pool name, the pool cache is
unchanged — no entry is inserted under that name (the `pools_.emplace` at
the end of the try block is never reached), so a later call for the same
name re-attempts full construction rather than returning a partial
sequence.  The hypothesis states that the generic factory used for nested
object servers does not itself touch the pool cache. -/
theorem makePool_error_cache_unchanged (env : Env) (fc : FactoryFn) (st : PState)
    (name : String) (json : Json) (e : Err) (st' : PState)
    (hfc : ∀ j s, ((fc j s).2).pools = s.pools)
    (h : makePool env fc st name json = (.error e, st')) :
    st'.pools = st.pools ∧ st'.pools.lookup name = st.pools.lookup name := by
  have hp : st'.pools = st.pools := by
    unfold makePool at h
    split at h
    · simp at h
    · cases hmi : makePoolInner env fc st name json with
      | mk r st1 =>
        rw [hmi] at h
        cases r with
        | ok ds => simp at h
        | error e0 =>
          simp only [Prod.mk.injEq] at h
          rw [← h.2]
          exact makePoolInner_error_pools hfc hmi
  exact ⟨hp, by rw [hp]⟩

def c9Json : Json := .obj [("protocol", .str "http"), ("servers", .arr [.str "hostA"])]

def c9Err : Err :=
  match (makePool testEnv testFc st0 "B" c9Json).1 with
  | .error e => e
  | .ok _ => .ub

theorem makePool_error_cache_unchanged_witness :
    ((makePool testEnv testFc st0 "B" c9Json).2).pools = st0.pools ∧
    ((makePool testEnv testFc st0 "B" c9Json).2).pools.lookup "B" = st0.pools.lookup "B" :=
  makePool_error_cache_unchanged testEnv testFc st0 "B" c9Json c9Err
    (makePool testEnv testFc st0 "B" c9Json).2 (fun _ _ => rfl) (by rfl)

/-! ## C8 -/

theorem validateServers_mismatch (json : Json) (servers hostnames : List Json)
    (hs : json.get "servers" = some (.arr servers))
    (hh : json.get "hostnames" = some (.arr hostnames))
    (hlen : hostnames.length ≠ servers.length) :
    validateServers json = .error (hostnamesSizeMsg servers.length hostnames.length) := by
  unfold validateServers
  rw [hs, hh]
  simp [hlen]

/-- C8: when `hostnames` is present and its length differs from that of
`servers`, fresh pool resolution fails with a configuration error and the
returned state is exactly the input state — in particular no destination
object (`destMap`) and no destination route handle was created. -/
theorem makePool_hostnames_mismatch (env : Env) (fc : FactoryFn) (st : PState)
    (name : String) (json : Json) (servers hostnames : List Json)
    (hcache : st.pools.lookup name = none)
    (hs : json.get "servers" = some (.arr servers))
    (hh : json.get "hostnames" = some (.arr hostnames))
    (hlen : hostnames.length ≠ servers.length) :
    ∃ msg, makePool env fc st name json = (.error (.config msg), st) := by
  cases hrp : resolvePoolParams env json with
  | error m =>
    refine ⟨"Pool " ++ name ++ ": " ++ m, ?_⟩
    unfold makePool makePoolInner
    rw [hcache, hrp]
    rfl
  | ok params =>
    refine ⟨"Pool " ++ name ++ ": " ++ hostnamesSizeMsg servers.length hostnames.length, ?_⟩
    unfold makePool makePoolInner
    rw [hcache, hrp, validateServers_mismatch json servers hostnames hs hh hlen]
    rfl

def c8Json : Json :=
  .obj [("servers", .arr [.str "a", .str "b", .str "c"]),
        ("hostnames", .arr [.str "ha", .str "hb"])]

theorem makePool_hostnames_mismatch_witness :
    ∃ msg, makePool testEnv testFc st0 "C" c8Json = (.error (.config msg), st0) :=
  makePool_hostnames_mismatch testEnv testFc st0 "C" c8Json
    [.str "a", .str "b", .str "c"] [.str "ha", .str "hb"] rfl rfl rfl (by decide)

/-! ## C3 -/

theorem resolveTimeoutTier_select (opts : Opts) (region cluster : String) (base : Nat)
    (hner : region ≠ "") (hnec : cluster ≠ "") :
    resolveTimeoutTier opts region cluster base =
      if region = opts.routeRegion ∧ cluster = opts.routeCluster then
        (if opts.within_cluster_timeout_ms ≠ 0 then opts.within_cluster_timeout_ms else base)
      else if region = opts.routeRegion then
        (if opts.cross_cluster_timeout_ms ≠ 0 then opts.cross_cluster_timeout_ms else base)
      else
        (if opts.cross_region_timeout_ms ≠ 0 then opts.cross_region_timeout_ms else base) := by
  unfold resolveTimeoutTier
  simp [hner, hnec]

theorem resolvePoolParams_timeout {env : Env} {json : Json} {params : PoolParams}
    (hok : resolvePoolParams env json = .ok params) :
    ∃ ct, resolvePoolTimeouts env json = .ok (params.timeout, ct) := by
  unfold resolvePoolParams at hok
  split at hok
  · simp at hok
  · rename_i timeout ct heq
    split at hok
    · simp at hok
    · split at hok
      · simp at hok
      · split at hok
        · simp at hok
        · split at hok
          · simp at hok
          · split at hok
            · simp at hok
            · simp only [Except.ok.injEq] at hok
              subst hok
              exact ⟨ct, heq⟩

/-- C3: for a pool whose configuration carries non-empty `region` and
`cluster` strings, the timeout that parameter resolution produces is
selected by locality precedence against the proxy's own route: same region
and cluster uses the within-cluster override, same region only the
cross-cluster override, otherwise the cross-region override — and each
override takes effect only when non-zero, else the previously resolved
timeout `base` (explicit `server_timeout` or the process default) stands. -/
theorem makePool_timeout_locality (env : Env) (json : Json)
    (region cluster : String) (params : PoolParams) (base : Nat)
    (hr : json.get "region" = some (.str region))
    (hc : json.get "cluster" = some (.str cluster))
    (hner : region ≠ "") (hnec : cluster ≠ "")
    (hbase : explicitServerTimeout env json = .ok base)
    (hok : resolvePoolParams env json = .ok params) :
    params.timeout =
      if region = env.opts.routeRegion ∧ cluster = env.opts.routeCluster then
        (if env.opts.within_cluster_timeout_ms ≠ 0 then env.opts.within_cluster_timeout_ms
         else base)
      else if region = env.opts.routeRegion then
        (if env.opts.cross_cluster_timeout_ms ≠ 0 then env.opts.cross_cluster_timeout_ms
         else base)
      else
        (if env.opts.cross_region_timeout_ms ≠ 0 then env.opts.cross_region_timeout_ms
         else base) := by
  obtain ⟨ct, hrt⟩ := resolvePoolParams_timeout hok
  have hgrc : getRegionCluster json = (region, cluster) := by
    unfold getRegionCluster
    rw [hr, hc]
  have htier : resolveTimeoutTier env.opts region cluster base = params.timeout := by
    unfold resolvePoolTimeouts at hrt
    rw [hbase, hgrc] at hrt
    cases hgc : json.get "connect_timeout" with
    | none =>
      simp only [hgc, Except.ok.injEq, Prod.mk.injEq] at hrt
      exact hrt.1
    | some j =>
      cases hpt : parseTimeout j "connect_timeout" with
      | error m => simp [hgc, hpt] at hrt
      | ok ct2 =>
        simp only [hgc, hpt, Except.ok.injEq, Prod.mk.injEq] at hrt
        exact hrt.1
  rw [← htier]
  exact resolveTimeoutTier_select env.opts region cluster base hner hnec

def c3Json : Json :=
  .obj [("region", .str "r1"), ("cluster", .str "c1"), ("server_timeout", .num 500),
        ("servers", .arr [.str "hostA"])]

def c3Params : PoolParams :=
  match resolvePoolParams testEnv c3Json with
  | .ok p => p
  | .error _ => ⟨0, 0, .ascii, false, false, 0, 0, ⟨.NONE, none, none, none, none, 0⟩⟩

theorem makePool_timeout_locality_witness :
    c3Params.timeout =
      if "r1" = testEnv.opts.routeRegion ∧ "c1" = testEnv.opts.routeCluster then
        (if testEnv.opts.within_cluster_timeout_ms ≠ 0 then testEnv.opts.within_cluster_timeout_ms
         else 500)
      else if "r1" = testEnv.opts.routeRegion then
        (if testEnv.opts.cross_cluster_timeout_ms ≠ 0 then testEnv.opts.cross_cluster_timeout_ms
         else 500)
      else
        (if testEnv.opts.cross_region_timeout_ms ≠ 0 then testEnv.opts.cross_region_timeout_ms
         else 500) :=
  makePool_timeout_locality testEnv c3Json "r1" "c1" c3Params 500 rfl rfl
    (by decide) (by decide) rfl rfl

/-! ## C4 -/

/-- C4: transport selection for a plain (string) server entry whose access
point has already received the within-DC/cross-DC overrides.  With thrift
protocol the destination step succeeds exactly when the effective security
mechanism is plain, TLS, or TLS-to-plaintext, and fails with a
configuration error otherwise; non-thrift protocols are not subject to the
restriction. -/
theorem makeDestination_thrift_security (params : PoolParams) (name : String)
    (i : Nat) (statIndex : Int) (ap : AccessPoint) (st : PState) :
    (ap.protocol = .thrift →
      (ap.mech = .NONE ∨ ap.mech = .TLS ∨ ap.mech = .TLS_TO_PLAINTEXT) →
      (makeDestination params name i statIndex ap st).1 =
        .ok (RH.dest .thriftTransport ap name i statIndex params.timeout params.keepRoutingPref))
    ∧ (ap.protocol = .thrift →
      ¬ (ap.mech = .NONE ∨ ap.mech = .TLS ∨ ap.mech = .TLS_TO_PLAINTEXT) →
      (makeDestination params name i statIndex ap st).1 =
        .error (.config
          ("Security mechanism must be 'plain', 'tls' or 'tls_to_plain' for ThriftTransport, got "
            ++ securityMechToString ap.mech)))
    ∧ (ap.protocol ≠ .thrift →
      (makeDestination params name i statIndex ap st).1 =
        .ok (RH.dest .asyncMcClient ap name i statIndex params.timeout params.keepRoutingPref)) := by
  obtain ⟨host, port, protocol, mech, comp⟩ := ap
  cases protocol <;> cases mech <;>
    simp [makeDestination, createDestinationRoute, thriftMechOk]

def c4Params : PoolParams :=
  ⟨1000, 1000, .thrift, false, false, 0, 0, ⟨.TLS, none, none, none, none, 0⟩⟩

def c4Ap : AccessPoint := ⟨"hostA", 0, .thrift, .TLS, false⟩

theorem makeDestination_thrift_security_witness :
    (makeDestination c4Params "p" 0 0 c4Ap st0).1 =
      .ok (RH.dest .thriftTransport c4Ap "p" 0 0 c4Params.timeout c4Params.keepRoutingPref) :=
  (makeDestination_thrift_security c4Params "p" 0 0 c4Ap st0).1 rfl (Or.inr (Or.inl rfl))

/-! ## C7 -/

theorem buildCheckedRouteMap_lookup (m : List (String × (Json → Option RH))) (ty : String) :
    (buildCheckedRouteMap m).lookup ty = (m.lookup ty).map (fun f => checkedFactory ty f) := by
  induction m with
  | nil => rfl
  | cons p t ih =>
    obtain ⟨k, f⟩ := p
    simp only [buildCheckedRouteMap, List.map_cons, List.lookup_cons]
    cases hk : (ty == k) with
    | true =>
      have hkeq : ty = k := eq_of_beq hk
      subst hkeq
      simp
    | false => simpa using ih

/-- C7: when a route type name is registered in the built-in route map and
its raw factory returns no handle, `create` for that type fails with a
configuration error whose message contains the type name, instead of
returning a null handle. -/
theorem create_registry_null_fails (env : Env) (fc : FactoryFn) (st : PState)
    (ty : String) (json : Json) (f : Json → Option RH)
    (hty : ty ∉ (["Pool", "ShadowRoute", "SaltedFailoverRoute", "FailoverRoute",
      "PoolRoute"] : List String))
    (hlk : env.routeMap.lookup ty = some f)
    (hnull : f json = none) :
    create env fc st ty json =
      (.error (.config ("make" ++ ty ++ " returned nullptr")), st) ∧
    ∃ pre post, "make" ++ ty ++ " returned nullptr" = pre ++ ty ++ post := by
  refine ⟨?_, "make", " returned nullptr", rfl⟩
  simp only [List.mem_cons, List.not_mem_nil, or_false, not_or] at hty
  obtain ⟨h1, h2, h3, h4, h5⟩ := hty
  unfold create
  rw [if_neg h1, if_neg h2, if_neg h3, if_neg h4, if_neg h5,
    buildCheckedRouteMap_lookup, hlk]
  simp [checkedFactory, hnull]

def c7Env : Env := { testEnv with routeMap := [("NullRoute", fun _ => none)] }

theorem create_registry_null_fails_witness :
    create c7Env testFc st0 "NullRoute" (Json.obj []) =
      (.error (.config ("make" ++ "NullRoute" ++ " returned nullptr")), st0) ∧
    ∃ pre post, "make" ++ "NullRoute" ++ " returned nullptr" = pre ++ "NullRoute" ++ post :=
  create_registry_null_fails c7Env testFc st0 "NullRoute" (Json.obj [])
    (fun _ => none) (by decide) rfl rfl

/-! ## C2 -/

/-- The SaltedFailoverRoute rewrite as the spec describes it, for a pool
given by name and a present `hash` object: the `children` of the
configuration are replaced by, in order, a normal branch equivalent to a
`PoolRoute` carrying the pool name and the hash object, and a failover
branch referencing the pool directly (`"Pool|<name>"`); everything else in
the configuration is kept. -/
def saltedRewriteSpec (kvs : List (String × Json)) (poolName : String) (hash : Json) : Json :=
  Json.obj (objSet (objErase kvs "children") "children"
    (.arr [Json.obj [("type", .str "PoolRoute"), ("pool", .str poolName), ("hash", hash)],
           .str ("Pool|" ++ poolName)]))

theorem saltedFailoverRewrite_str_hash (kvs : List (String × Json))
    (poolName : String) (hash : Json)
    (hp : (Json.obj kvs).get "pool" = some (.str poolName))
    (hh : (Json.obj kvs).get "hash" = some hash) :
    saltedFailoverRewrite (Json.obj kvs) =
      some (.ok (saltedRewriteSpec kvs poolName hash)) := by
  unfold saltedFailoverRewrite
  rw [hp, hh]
  rfl

/-- C2: for a SaltedFailoverRoute configuration with `pool: "P"` (a string)
and a `hash` object, `create` rewrites the configuration into one whose
`children` are, in order, a normal branch equivalent to
`PoolRoute{pool:"P", hash:H}` and a failover branch referencing pool `"P"`
directly, and delegates the rewritten configuration to the failover
builder (modelled by the opaque `RH.failover` constructor recording the
delegated configuration). -/
theorem create_saltedFailover_rewrite (env : Env) (fc : FactoryFn) (st : PState)
    (kvs : List (String × Json)) (poolName : String) (hash : Json)
    (hp : (Json.obj kvs).get "pool" = some (.str poolName))
    (hh : (Json.obj kvs).get "hash" = some hash) :
    create env fc st "SaltedFailoverRoute" (Json.obj kvs) =
      (.ok [RH.failover (saltedRewriteSpec kvs poolName hash)], st) := by
  unfold create
  simp only [String.reduceEq, reduceIte]
  rw [saltedFailoverRewrite_str_hash kvs poolName hash hp hh]

def c2Kvs : List (String × Json) :=
  [("type", .str "SaltedFailoverRoute"), ("pool", .str "P"),
   ("hash", .obj [("hash_func", .str "Ch3")]), ("failover_errors", .arr [])]

theorem create_saltedFailover_rewrite_witness :
    create testEnv testFc st0 "SaltedFailoverRoute" (Json.obj c2Kvs) =
      (.ok [RH.failover (saltedRewriteSpec c2Kvs "P" (.obj [("hash_func", .str "Ch3")]))], st0) :=
  create_saltedFailover_rewrite testEnv testFc st0 c2Kvs "P"
    (.obj [("hash_func", .str "Ch3")]) rfl rfl

/-! ## C10 -/

/-- C10: the SaltedFailoverRoute branch of `create` reads `pool` via
`get_ptr` and dereferences the result without a presence check.  Under the
precondition that `pool` is present every access is defined (the rewrite
produces a result); the failure "pool needs to be either a string or an
object" is raised exactly when `pool` is present but is neither a string
nor an object; and when `pool` is absent the branch dereferences a null
pointer — undefined behavior, not a reported configuration error. -/
theorem saltedFailover_pool_field_safety (env : Env) (fc : FactoryFn) (st : PState)
    (kvs : List (String × Json)) :
    (((Json.obj kvs).get "pool").isSome →
      (saltedFailoverRewrite (Json.obj kvs)).isSome = true)
    ∧ (saltedFailoverRewrite (Json.obj kvs) =
        some (.error "pool needs to be either a string or an object") ↔
        ∃ p, (Json.obj kvs).get "pool" = some p ∧ p.isString = false ∧ p.isObject = false)
    ∧ ((Json.obj kvs).get "pool" = none →
        create env fc st "SaltedFailoverRoute" (Json.obj kvs) = (.error .ub, st)) := by
  cases hgp : (Json.obj kvs).get "pool" with
  | none =>
    refine ⟨?_, ?_, ?_⟩
    · intro hs
      simp at hs
    · constructor
      · intro h
        unfold saltedFailoverRewrite at h
        rw [hgp] at h
        simp at h
      · rintro ⟨p, hp, -, -⟩
        simp at hp
    · intro _
      unfold create
      simp only [String.reduceEq, reduceIte]
      unfold saltedFailoverRewrite
      rw [hgp]
  | some p =>
    refine ⟨?_, ?_, ?_⟩
    · intro _
      unfold saltedFailoverRewrite
      rw [hgp]
      rfl
    · constructor
      · intro h
        unfold saltedFailoverRewrite at h
        rw [hgp] at h
        refine ⟨p, rfl, ?_⟩
        cases p <;> simp_all [Json.isString, Json.isObject]
      · rintro ⟨q, hq, hqs, hqo⟩
        injection hq with hq
        subst hq
        unfold saltedFailoverRewrite
        rw [hgp]
        cases p <;> simp_all [Json.isString, Json.isObject]
    · intro hnone
      simp at hnone

theorem saltedFailover_pool_field_safety_witness :
    saltedFailoverRewrite (Json.obj [("pool", Json.num 5)]) =
      some (.error "pool needs to be either a string or an object") :=
  ((saltedFailover_pool_field_safety testEnv testFc st0 [("pool", Json.num 5)]).2.1).mpr
    ⟨Json.num 5, rfl, rfl, rfl⟩

/-! ## C5 -/

def isAsynclogWrapped : RH → Bool
  | .asynclog _ _ => true
  | _ => false

def resultRoute (r : Except Err RH × PState) : RH :=
  match r.1 with
  | .ok rh => rh
  | .error _ => RH.shadow (Json.obj [])

def c5Env : Env := { testEnv with opts := { testOpts with asynclog_disable := true } }

def c5Route : RH := .hashRoute (Json.obj []) []

/-- C5 counterexample: with the process-wide asynclog-disable option set
and `asynclog` not explicitly false, the composed route receives no
async-log decoration — the claim's fixed order asserts an unconditional
async-log decoration whenever `asynclog` is not explicitly false.  (The
registry entry is still recorded.) -/
theorem poolRouteDecorations_asynclog_counterexample :
    isAsynclogWrapped
        (resultRoute (applyPoolRouteDecorations c5Env st0 "p" (Json.obj []) c5Route)) = false
    ∧ (applyPoolRouteDecorations c5Env st0 "p" (Json.obj []) c5Route).1 = .ok c5Route
    ∧ ((applyPoolRouteDecorations c5Env st0 "p" (Json.obj []) c5Route).2).asyncLogRoutes
        = [("p", c5Route)] :=
  ⟨rfl, rfl, rfl⟩

/-- C5 (amended): the decorations of a pool-route composition are applied
over the hash-distribution handle in fixed order — a rate-limit wrap
exactly when `rates` is present, then a shard-split wrap exactly when
`shard_splits` is present and shard-split routes are not globally
disabled, then an async-log wrap exactly when `asynclog` is not explicitly
false and async logging is not globally disabled; whenever `asynclog` is
not explicitly false the resulting (possibly wrapped) handle is recorded
in the AsyncLog registry under `name` when given, else the pool's name. -/
theorem applyPoolRouteDecorations_order (env : Env) (st : PState)
    (poolName : String) (kvs : List (String × Json)) (route : RH)
    (needA : Bool) (aname : String)
    (hna : poolRouteNeedAsynclog (Json.obj kvs) = .ok needA)
    (hnm : poolRouteAsynclogName poolName (Json.obj kvs) = .ok aname) :
    applyPoolRouteDecorations env st poolName (Json.obj kvs) route =
      (let r1 := match (Json.obj kvs).get "rates" with
                 | some jrates => RH.rateLimit jrates route
                 | none => route
       let r2 := if ¬ env.opts.disable_shard_split_route then
                   match (Json.obj kvs).get "shard_splits" with
                   | some jsplits => RH.shardSplit jsplits r1
                   | none => r1
                 else r1
       let r3 := if needA ∧ ¬ env.opts.asynclog_disable then RH.asynclog aname r2 else r2
       (Except.ok r3,
        if needA then { st with asyncLogRoutes := mapEmplace st.asyncLogRoutes aname r3 }
        else st)) := by
  unfold applyPoolRouteDecorations createAsynclogRoute
  rw [hna, hnm]
  cases needA with
  | false => simp
  | true => cases hd : env.opts.asynclog_disable <;> simp [hd]

def c5Kvs : List (String × Json) :=
  [("rates", .num 1), ("shard_splits", .num 2), ("name", .str "k")]

theorem applyPoolRouteDecorations_order_witness :
    applyPoolRouteDecorations testEnv st0 "p" (Json.obj c5Kvs) c5Route =
      (let r1 := match (Json.obj c5Kvs).get "rates" with
                 | some jrates => RH.rateLimit jrates c5Route
                 | none => c5Route
       let r2 := if ¬ testEnv.opts.disable_shard_split_route then
                   match (Json.obj c5Kvs).get "shard_splits" with
                   | some jsplits => RH.shardSplit jsplits r1
                   | none => r1
                 else r1
       let r3 := if true ∧ ¬ testEnv.opts.asynclog_disable then RH.asynclog "k" r2 else r2
       (Except.ok r3,
        if true then { st0 with asyncLogRoutes := mapEmplace st0.asyncLogRoutes "k" r3 }
        else st0)) :=
  applyPoolRouteDecorations_order testEnv st0 "p" c5Kvs c5Route true "k" rfl rfl

/-! ## C6 -/

def c6Target1 : RH := .hashRoute (Json.obj []) []

def c6Target2 : RH := .failover (Json.obj [])

/-- C6 counterexample: two pool-route compositions recording under the
same asynclog name — after both, the registry maps the name to the handle
recorded by the FIRST writer, not the last one: `emplace` on the registry
does not overwrite an existing entry. -/
theorem asyncLogRegistry_last_writer_counterexample :
    (((createAsynclogRoute testEnv
          ((createAsynclogRoute testEnv st0 c6Target1 "log").2)
          c6Target2 "log").2).asyncLogRoutes.lookup "log"
        = some (RH.asynclog "log" c6Target1))
    ∧ RH.asynclog "log" c6Target1 ≠ RH.asynclog "log" c6Target2 := by
  constructor
  · rfl
  · intro h
    simp [c6Target1, c6Target2] at h

theorem mapEmplace_existing (m : List (String × RH)) (k : String) (v w : RH)
    (h : m.lookup k = some v) : (mapEmplace m k w).lookup k = some v := by
  unfold mapEmplace
  rw [h]
  exact h

/-- C6 (amended): when two pool-route compositions record an entry in the
AsyncLog registry under the same asynclog name, the EARLIER insertion wins:
`emplace` inserts only if the key is absent, so after both compositions the
registry maps the name to the handle recorded by the first writer. -/
theorem asyncLogRegistry_first_writer_wins (env : Env) (st : PState)
    (t1 t2 r1 : RH) (logName : String) (st1 : PState)
    (hfresh : st.asyncLogRoutes.lookup logName = none)
    (h1 : createAsynclogRoute env st t1 logName = (.ok r1, st1)) :
    ((createAsynclogRoute env st1 t2 logName).2).asyncLogRoutes.lookup logName =
      some (if ¬ env.opts.asynclog_disable then RH.asynclog logName t1 else t1) := by
  have hw1 : (mapEmplace st.asyncLogRoutes logName
      (if ¬ env.opts.asynclog_disable then RH.asynclog logName t1 else t1)).lookup logName =
      some (if ¬ env.opts.asynclog_disable then RH.asynclog logName t1 else t1) := by
    unfold mapEmplace
    rw [hfresh]
    exact lookupAppendOfNone _ _ _ hfresh
  unfold createAsynclogRoute at h1 ⊢
  simp only [Prod.mk.injEq, Except.ok.injEq] at h1
  obtain ⟨h1a, h1b⟩ := h1
  subst h1b
  exact mapEmplace_existing _ _ _ _ hw1

theorem asyncLogRegistry_first_writer_wins_witness :
    ((createAsynclogRoute testEnv
        ((createAsynclogRoute testEnv st0 c6Target1 "log").2)
        c6Target2 "log").2).asyncLogRoutes.lookup "log" =
      some (if ¬ testEnv.opts.asynclog_disable then RH.asynclog "log" c6Target1
            else c6Target1) :=
  asyncLogRegistry_first_writer_wins testEnv st0 c6Target1 c6Target2
    (if ¬ testEnv.opts.asynclog_disable then RH.asynclog "log" c6Target1 else c6Target1)
    "log" (createAsynclogRoute testEnv st0 c6Target1 "log").2 rfl rfl

end Mcrouter
